import Mathlib

/-!
# Verification of the Yizhen auction & settlement engine

Shallow embedding of the Solidity contracts `YizhenAuctionMinimal`,
`ComplianceRegistry` and `YizhenAuctionWithCompliance` from the Yizhen
platform repository, together with proofs of the escrow, settlement and
compliance properties stated in the specification.

Addresses are modelled as natural numbers; the Solidity sentinel
`address(0)` for "no bidder" is modelled as `Option.none`.  Machine
integers (`uint128`, `uint64`, `uint256`) are modelled as `Nat`:
Solidity ^0.8 arithmetic is checked (it reverts instead of wrapping),
and no operation of the embedded code can underflow on the guarded
paths, so `Nat` arithmetic agrees with the source on every
non-reverting execution.

Value flow is made explicit: each auction state carries the history of
escrow credits (`pending`, an append-only list of
`(bidder, amount)` entries whose per-key sum is the
`pendingReturns[auctionId][bidder]` mapping), the list of outbound
`transfer` calls (`transfers`), and the total `msg.value` ever received
(`totalDeposited`).
-/

namespace Yizhen

/-- Solidity seconds: `5 minutes`. -/
def fiveMinutes : Nat := 300

/-- Solidity seconds: `1 hours`. -/
def oneHour : Nat := 3600

/-- Solidity seconds: `30 days`. -/
def thirtyDays : Nat := 2592000

/-- `platformFeePercentage = 250` (basis points), no setter in the contract. -/
def platformFeePercentage : Nat := 250

/-- Revert reasons of `YizhenAuctionMinimal`, one constructor per
`require` message in the source. -/
inductive AuctionError where
  | invalidPrice        -- "Invalid price"
  | invalidDuration     -- "Invalid duration"
  | notYetEnded         -- "Not ended"
  | endedTime           -- "Ended" (placeBid past endTime)
  | alreadyEnded        -- "Already ended"
  | bidTooLow           -- "Bid too low"
  | alreadyMinted       -- "Already minted"
  | nothingToWithdraw   -- "Nothing to withdraw"
deriving Repr, DecidableEq

/-- State of one auction of `YizhenAuctionMinimal`, with the contract-level
configuration (`ownerAddr`, `feeRecipient`) and explicit value-flow history.
`seller` records the `msg.sender` of the `createAuction` call (the contract
struct itself stores no seller; the field is ghost data used only to state
properties about disbursement recipients).  `mintCount` counts calls of
`nftContract.mintCeramic` and `mintedTo` its recipient (ghost data for the
single-winner property). -/
structure AuctionState where
  startingPrice : Nat
  reservePrice : Nat
  minBidIncrement : Nat
  highestBid : Nat
  startTime : Nat
  endTime : Nat
  highestBidder : Option Nat
  ended : Bool
  nftMinted : Bool
  seller : Nat
  ownerAddr : Nat
  feeRecipient : Nat
  pending : List (Nat × Nat)
  transfers : List (Nat × Nat)
  totalDeposited : Nat
  mintCount : Nat
  mintedTo : Option Nat
deriving Repr, DecidableEq

/-- `pendingReturns[auctionId][b]`: the escrow balance of bidder `b`,
the sum of all still-live escrow credits for `b`. -/
def pendingBalance (s : AuctionState) (b : Nat) : Nat :=
  ((s.pending.filter (fun p => p.1 = b)).map Prod.snd).sum

/-- Sum of all escrow balances of the auction. -/
def sumPending (s : AuctionState) : Nat :=
  (s.pending.map Prod.snd).sum

/-- Total value pushed out by `transfer` calls (withdrawals and
settlement disbursements). -/
def sumTransfers (s : AuctionState) : Nat :=
  (s.transfers.map Prod.snd).sum

/-- The `highestBid` amount still locked in the contract: it is locked
exactly while the auction has not ended (on settlement it is disbursed,
on an unsold end it is moved into `pending`). -/
def lockedBid (s : AuctionState) : Nat :=
  if s.ended then 0 else s.highestBid

/--
```text
function createAuction(uint128 startingPrice, uint128 reservePrice,
    uint128 minBidIncrement, uint64 duration) ... {
  require(startingPrice > 0, "Invalid price");
  require(duration >= 1 hours && duration <= 30 days, "Invalid duration");
  ...
}
```
`sender` is `msg.sender` (an authorized seller), `ownerAddr` / `feeRecipient`
the contract configuration, `now` is `block.timestamp`. -/
def createAuction (startingPrice reservePrice minBidIncrement duration : Nat)
    (now sender ownerAddr feeRecipient : Nat) : Except AuctionError AuctionState :=
  if startingPrice = 0 then .error .invalidPrice
  else if duration < oneHour ∨ thirtyDays < duration then .error .invalidDuration
  else .ok
    { startingPrice := startingPrice
      reservePrice := reservePrice
      minBidIncrement := minBidIncrement
      highestBid := 0
      startTime := now
      endTime := now + duration
      highestBidder := none
      ended := false
      nftMinted := false
      seller := sender
      ownerAddr := ownerAddr
      feeRecipient := feeRecipient
      pending := []
      transfers := []
      totalDeposited := 0
      mintCount := 0
      mintedTo := none }

/-- `minBid` as computed inside `placeBid`:
`auction.highestBid == 0 ? auction.startingPrice
                         : auction.highestBid + auction.minBidIncrement`. -/
def minAcceptable (s : AuctionState) : Nat :=
  if s.highestBid = 0 then s.startingPrice else s.highestBid + s.minBidIncrement

/--
```text
function placeBid(uint256 auctionId) external payable ... {
  require(block.timestamp < auction.endTime, "Ended");
  require(!auction.ended, "Already ended");
  uint256 minBid = auction.highestBid == 0 ? auction.startingPrice
                 : auction.highestBid + auction.minBidIncrement;
  require(msg.value >= minBid, "Bid too low");
  if (auction.highestBidder != address(0)) {
    pendingReturns[auctionId][auction.highestBidder] += auction.highestBid;
  }
  auction.highestBidder = msg.sender;
  auction.highestBid = uint128(msg.value);
  if (auction.endTime - block.timestamp < 5 minutes) {
    auction.endTime += 5 minutes;
  }
}
```
A successful call also receives `msg.value`, recorded in `totalDeposited`. -/
def placeBid (s : AuctionState) (bidder value now : Nat) :
    Except AuctionError AuctionState :=
  if s.endTime ≤ now then .error .endedTime
  else if s.ended then .error .alreadyEnded
  else if value < minAcceptable s then .error .bidTooLow
  else
    let s1 :=
      match s.highestBidder with
      | some prev => { s with pending := s.pending ++ [(prev, s.highestBid)] }
      | none => s
    let s2 := { s1 with
      highestBidder := some bidder
      highestBid := value
      totalDeposited := s1.totalDeposited + value }
    if s2.endTime - now < fiveMinutes then
      .ok { s2 with endTime := s2.endTime + fiveMinutes }
    else
      .ok s2

/--
```text
function endAuction(uint256 auctionId) external nonReentrant {
  require(block.timestamp >= auction.endTime, "Not ended");
  require(!auction.ended, "Already ended");
  auction.ended = true;
  if (auction.highestBidder != address(0) && auction.highestBid >= auction.reservePrice) {
    uint256 platformFee = (uint256(auction.highestBid) * platformFeePercentage) / 10000;
    uint256 sellerProceeds = uint256(auction.highestBid) - platformFee;
    payable(feeRecipient).transfer(platformFee);
    payable(owner()).transfer(sellerProceeds);
    _mintNFT(auctionId);
  } else {
    if (auction.highestBidder != address(0)) {
      pendingReturns[auctionId][auction.highestBidder] += auction.highestBid;
    }
  }
}
```
`_mintNFT` requires `!auction.nftMinted` and sets it; a failed `require`
reverts the whole call, which the `Except` error models. -/
def endAuction (s : AuctionState) (now : Nat) : Except AuctionError AuctionState :=
  if now < s.endTime then .error .notYetEnded
  else if s.ended then .error .alreadyEnded
  else
    let s1 := { s with ended := true }
    match s.highestBidder with
    | some w =>
      if s.reservePrice ≤ s.highestBid then
        let platformFee := s.highestBid * platformFeePercentage / 10000
        let sellerProceeds := s.highestBid - platformFee
        let s2 := { s1 with
          transfers := s1.transfers ++ [(s.feeRecipient, platformFee), (s.ownerAddr, sellerProceeds)] }
        if s2.nftMinted then .error .alreadyMinted
        else .ok { s2 with nftMinted := true, mintCount := s2.mintCount + 1, mintedTo := some w }
      else
        .ok { s1 with pending := s1.pending ++ [(w, s.highestBid)] }
    | none => .ok s1

/--
```text
function withdraw(uint256 auctionId) external nonReentrant {
  uint256 amount = pendingReturns[auctionId][msg.sender];
  require(amount > 0, "Nothing to withdraw");
  pendingReturns[auctionId][msg.sender] = 0;
  payable(msg.sender).transfer(amount);
}
```
Zeroing the mapping entry is modelled by dropping every live escrow
credit of the caller. -/
def withdraw (s : AuctionState) (caller : Nat) : Except AuctionError AuctionState :=
  let amount := pendingBalance s caller
  if amount = 0 then .error .nothingToWithdraw
  else .ok { s with
    pending := s.pending.filter (fun p => ¬ p.1 = caller)
    transfers := s.transfers ++ [(caller, amount)] }

/-- One external call on a single auction. -/
inductive Op where
  | bid (bidder value now : Nat)
  | finish (now : Nat)
  | pull (caller : Nat)
deriving Repr, DecidableEq

/-- Executing one call: a revert (error) leaves the state unchanged. -/
def exec (s : AuctionState) (op : Op) : AuctionState :=
  match op with
  | .bid bidder value now =>
    match placeBid s bidder value now with
    | .ok s' => s'
    | .error _ => s
  | .finish now =>
    match endAuction s now with
    | .ok s' => s'
    | .error _ => s
  | .pull caller =>
    match withdraw s caller with
    | .ok s' => s'
    | .error _ => s

/-- Executing a sequence of calls. -/
def run (s : AuctionState) (ops : List Op) : AuctionState :=
  ops.foldl exec s

/-- Whether the auction settled: it ended with a highest bidder meeting
the reserve. -/
def settled (s : AuctionState) : Prop :=
  s.ended = true ∧ s.highestBidder.isSome = true ∧ s.reservePrice ≤ s.highestBid

instance (s : AuctionState) : Decidable (settled s) := by
  unfold settled; infer_instance

/-- The inductive invariant of a single auction: escrow conservation
together with the bookkeeping facts needed to push it through each step. -/
def Inv (s : AuctionState) : Prop :=
  sumPending s + lockedBid s + sumTransfers s = s.totalDeposited ∧
  (s.highestBidder = none → s.highestBid = 0) ∧
  (s.nftMinted = true ↔ settled s) ∧
  s.mintCount = (if s.nftMinted then 1 else 0)

/-! ## ComplianceRegistry -/

/-- `enum ComplianceStatus`. -/
inductive ComplianceStatus where
  | UNKNOWN | PENDING | APPROVED | CONDITIONAL | REVIEW | BLOCKED
deriving Repr, DecidableEq

/-- `enum KYCLevel`. -/
inductive KYCLevel where
  | NONE | BASIC | ENHANCED | INSTITUTIONAL
deriving Repr, DecidableEq

/-- `struct ComplianceData` (the `flags` mapping is unused by the
operations modelled here and omitted). -/
structure ComplianceData where
  status : ComplianceStatus := .UNKNOWN
  kycLevel : KYCLevel := .NONE
  riskScore : Nat := 0
  lastUpdated : Nat := 0
  kycExpiry : Nat := 0
  jurisdiction : String := ""
  sanctioned : Bool := false
deriving Repr, DecidableEq

/-- `struct TransactionLimits`. -/
structure TransactionLimits where
  dailyLimit : Nat
  monthlyLimit : Nat
  perTransactionLimit : Nat
deriving Repr, DecidableEq

/-- `uint256 public constant DAY = 86400;` -/
def DAY : Nat := 86400

/-- `uint256 public constant MONTH = 2592000;` -/
def MONTH : Nat := 2592000

/-- State of the `ComplianceRegistry` contract. -/
structure Registry where
  userCompliance : Nat → ComplianceData
  transactionLimits : KYCLevel → TransactionLimits
  dailyVolume : Nat → Nat
  monthlyVolume : Nat → Nat
  lastActivityDate : Nat → Nat
  sanctionsList : Nat → Bool
  highRiskThreshold : Nat := 7000

/-- `_setDefaultLimits`, installed by the constructor. -/
def defaultLimits : KYCLevel → TransactionLimits
  | .NONE => { dailyLimit := 1000 * 1000000, monthlyLimit := 5000 * 1000000,
               perTransactionLimit := 500 * 1000000 }
  | .BASIC => { dailyLimit := 10000 * 1000000, monthlyLimit := 50000 * 1000000,
                perTransactionLimit := 5000 * 1000000 }
  | .ENHANCED => { dailyLimit := 100000 * 1000000, monthlyLimit := 1000000 * 1000000,
                   perTransactionLimit := 50000 * 1000000 }
  | .INSTITUTIONAL => { dailyLimit := 10000000 * 1000000, monthlyLimit := 100000000 * 1000000,
                        perTransactionLimit := 5000000 * 1000000 }

/-- The registry as left by the constructor: every profile at its zero
value, default limits, empty sanctions list, `highRiskThreshold = 7000`. -/
def initRegistry : Registry :=
  { userCompliance := fun _ => {}
    transactionLimits := defaultLimits
    dailyVolume := fun _ => 0
    monthlyVolume := fun _ => 0
    lastActivityDate := fun _ => 0
    sanctionsList := fun _ => false }

/-- `_getCurrentDailyVolume` (source name `_getCurrentDailyVolume`). -/
def getCurrentDailyVolume (r : Registry) (user now : Nat) : Nat :=
  if r.lastActivityDate user + DAY < now then 0 else r.dailyVolume user

/-- `_getCurrentMonthlyVolume` (source name `_getCurrentMonthlyVolume`). -/
def getCurrentMonthlyVolume (r : Registry) (user now : Nat) : Nat :=
  if r.lastActivityDate user + MONTH < now then 0 else r.monthlyVolume user

/--
`checkTransaction(address user, uint256 amount)`, a view function; `now` is
`block.timestamp`.  The checks run in source order: sanctions, blocked,
unknown, KYC expiry, per-transaction limit, daily limit, monthly limit,
risk score. -/
def checkTransaction (r : Registry) (user amount now : Nat) : Bool × String :=
  let data := r.userCompliance user
  if data.sanctioned || r.sanctionsList user then
    (false, "User is sanctioned")
  else if data.status = .BLOCKED then
    (false, "User is blocked")
  else if data.status = .UNKNOWN then
    (false, "Compliance check required")
  else if 0 < data.kycExpiry ∧ data.kycExpiry < now then
    (false, "KYC expired")
  else
    let limits := r.transactionLimits data.kycLevel
    if limits.perTransactionLimit < amount then
      (false, "Exceeds per-transaction limit")
    else if limits.dailyLimit < getCurrentDailyVolume r user now + amount then
      (false, "Exceeds daily limit")
    else if limits.monthlyLimit < getCurrentMonthlyVolume r user now + amount then
      (false, "Exceeds monthly limit")
    else if r.highRiskThreshold ≤ data.riskScore then
      (false, "High risk - manual review required")
    else
      (true, "Approved")

/-- `updateCompliance(address user, ComplianceStatus status, uint256 riskScore)`:
sets status and risk score, then auto-blocks when
`riskScore >= highRiskThreshold && status != BLOCKED`.
Fails (`require(riskScore <= 10000)`) on an invalid score. -/
def updateCompliance (r : Registry) (user : Nat) (status : ComplianceStatus)
    (riskScore now : Nat) : Except String Registry :=
  if 10000 < riskScore then .error "Invalid risk score"
  else
    let data := r.userCompliance user
    let data1 := { data with status := status, riskScore := riskScore, lastUpdated := now }
    let data2 :=
      if r.highRiskThreshold ≤ riskScore ∧ status ≠ .BLOCKED then
        { data1 with status := .BLOCKED }
      else data1
    .ok { r with userCompliance := Function.update r.userCompliance user data2 }

/--
```text
function addToSanctionsList(address user) ... {
  sanctionsList[user] = true;
  userCompliance[user].sanctioned = true;
  userCompliance[user].status = ComplianceStatus.BLOCKED;
}
``` -/
def addToSanctionsList (r : Registry) (user : Nat) : Registry :=
  { r with
    sanctionsList := Function.update r.sanctionsList user true
    userCompliance := Function.update r.userCompliance user
      { r.userCompliance user with sanctioned := true, status := .BLOCKED } }

/--
```text
function removeFromSanctionsList(address user) ... {
  sanctionsList[user] = false;
  userCompliance[user].sanctioned = false;
}
```
Note: `status` is not touched. -/
def removeFromSanctionsList (r : Registry) (user : Nat) : Registry :=
  { r with
    sanctionsList := Function.update r.sanctionsList user false
    userCompliance := Function.update r.userCompliance user
      { r.userCompliance user with sanctioned := false } }

/-! ## YizhenAuctionWithCompliance -/

/-- `struct Auction` of `YizhenAuctionWithCompliance`. -/
structure WCAuction where
  artifactId : Nat
  seller : Nat
  startPrice : Nat
  currentBid : Nat
  currentBidder : Option Nat
  endTime : Nat
  ended : Bool
deriving Repr, DecidableEq

/-- One auction of `YizhenAuctionWithCompliance` together with the
outbound `transfer` calls it has issued. -/
structure WCState where
  auction : WCAuction
  transfers : List (Nat × Nat)
deriving Repr, DecidableEq

/--
```text
function placeBid(uint256 auctionId) external payable ... {
  require(!auction.ended, "Auction ended");
  require(block.timestamp < auction.endTime, "Auction expired");
  require(msg.value > auction.currentBid, "Bid too low");
  (bool compliant, string memory reason) =
      complianceRegistry.checkTransaction(msg.sender, msg.value);
  if (!compliant) revert(...);
  _recordComplianceTransaction(msg.sender, msg.value);
  if (auction.currentBidder != address(0)) {
    payable(auction.currentBidder).transfer(auction.currentBid);   // push refund
  }
  auction.currentBid = msg.value;
  auction.currentBidder = msg.sender;
}
```
The registry is read-only here (`_recordComplianceTransaction` is wrapped
in try/catch and cannot fail the bid; it only advances volume counters,
which this claim does not touch). -/
def wcPlaceBid (reg : Registry) (st : WCState) (sender value now : Nat) :
    Except String WCState :=
  if st.auction.ended then .error "Auction ended"
  else if st.auction.endTime ≤ now then .error "Auction expired"
  else if value ≤ st.auction.currentBid then .error "Bid too low"
  else
    let check := checkTransaction reg sender value now
    if check.1 = false then .error check.2
    else
      let st1 :=
        match st.auction.currentBidder with
        | some prev => { st with transfers := st.transfers ++ [(prev, st.auction.currentBid)] }
        | none => st
      .ok { st1 with auction :=
        { st1.auction with currentBid := value, currentBidder := some sender } }

/-! ## Concrete sample states used in witnesses and counterexamples -/

/-- The auction returned by
`createAuction 1000 5000 100 3600 0 2 0 1` (Scenario A parameters:
starting price 1000, reserve 5000, increment 100), created by seller 2
on a contract with owner 0 and fee recipient 1. -/
def sampleAuction : AuctionState :=
  { startingPrice := 1000
    reservePrice := 5000
    minBidIncrement := 100
    highestBid := 0
    startTime := 0
    endTime := 3600
    highestBidder := none
    ended := false
    nftMinted := false
    seller := 2
    ownerAddr := 0
    feeRecipient := 1
    pending := []
    transfers := []
    totalDeposited := 0
    mintCount := 0
    mintedTo := none }

/-- A sample call sequence: two bids, a withdrawal by the outbid bidder,
and an (unsold) end. -/
def sampleOps : List Op :=
  [Op.bid 3 1000 0, Op.bid 4 1200 10, Op.pull 3, Op.finish 3600]

/-- A call sequence that settles the auction: a bid above the reserve,
then `endAuction`. -/
def settleOps : List Op :=
  [Op.bid 3 6000 0, Op.finish 3600]

/-- Scenario A, after the accepted bid of 1000. -/
def scenA1 : AuctionState := exec sampleAuction (Op.bid 3 1000 0)

/-- Scenario A, after the further accepted bid of 1100. -/
def scenA2 : AuctionState := exec scenA1 (Op.bid 4 1100 5)

/-- An auction whose end time is 200 seconds away: the next bid is a
late (anti-snipe) bid. -/
def lateAuction : AuctionState := { sampleAuction with endTime := 200 }

/-- The late auction after an accepted late bid. -/
def lateAfter : AuctionState := exec lateAuction (Op.bid 3 1000 0)

/-- Scenario B: bidder 10 bids 1000. -/
def scenB1 : AuctionState := exec sampleAuction (Op.bid 10 1000 0)

/-- Scenario B: bidder 11 bids 1200, outbidding bidder 10. -/
def scenB2 : AuctionState := exec scenB1 (Op.bid 11 1200 1)

/-- Scenario B: bidder 10 withdraws their outbid 1000. -/
def scenB3 : AuctionState := exec scenB2 (Op.pull 10)

/-- Scenario C: highest bid 1200 below the reserve 5000. -/
def scenC1 : AuctionState := exec sampleAuction (Op.bid 3 1200 0)

/-- An auction (reserve 1000) that will settle, created by seller 2 on a
contract owned by 0 with fee recipient 1. -/
def c7Start : AuctionState := { sampleAuction with reservePrice := 1000 }

/-- `c7Start` after a bid of 1200 by bidder 3. -/
def c7Mid : AuctionState := exec c7Start (Op.bid 3 1200 0)

/-- `c7Mid` after settlement by `endAuction`. -/
def c7End : AuctionState := exec c7Mid (Op.finish 3600)

/-- A registry in which every user has `status = APPROVED` (and zero
risk, no sanctions): every `checkTransaction` within limits approves. -/
def c2Registry : Registry :=
  { initRegistry with userCompliance := fun _ => { status := .APPROVED } }

/-- A fresh `YizhenAuctionWithCompliance` auction with start price 100. -/
def wcSt0 : WCState :=
  { auction := { artifactId := 1, seller := 2, startPrice := 100, currentBid := 100,
                 currentBidder := none, endTime := 1000, ended := false }
    transfers := [] }

/-- `wcSt0` after bidder 7 bids 150. -/
def wcSt1 : WCState :=
  { wcSt0 with auction := { wcSt0.auction with currentBid := 150, currentBidder := some 7 } }

/-- `wcSt1` after bidder 8 bids 200: the contract pushed a 150 refund
to bidder 7 inside `placeBid`. -/
def wcSt2 : WCState :=
  { wcSt1 with
    auction := { wcSt1.auction with currentBid := 200, currentBidder := some 8 }
    transfers := [(7, 150)] }

/-- A registry in which every user is `APPROVED` with risk score 8500
(above the 7000 high-risk threshold), not sanctioned, KYC level `NONE`
(per-transaction limit 500000000). -/
def c8Registry : Registry :=
  { initRegistry with userCompliance := fun _ => { status := .APPROVED, riskScore := 8500 } }

/-- The registry after sanctioning user 5 and then clearing the
sanction again. -/
def c10r2 : Registry := removeFromSanctionsList (addToSanctionsList initRegistry 5) 5

/-! ## Helper lemmas -/

theorem sum_filter_key_split (l : List (Nat × Nat)) (b : Nat) :
    ((l.filter (fun p => p.1 = b)).map Prod.snd).sum
      + ((l.filter (fun p => ¬ p.1 = b)).map Prod.snd).sum
      = (l.map Prod.snd).sum := by
  induction l with
  | nil => simp
  | cons p t ih =>
    by_cases h : p.1 = b <;>
      simp [List.filter_cons, h, decide_not] at ih ⊢ <;>
      omega

theorem pendingBalance_le_sumPending (s : AuctionState) (b : Nat) :
    pendingBalance s b ≤ sumPending s := by
  have h := sum_filter_key_split s.pending b
  unfold pendingBalance sumPending
  omega

theorem sumPending_append (s : AuctionState) (l : List (Nat × Nat)) :
    (((s.pending ++ l).map Prod.snd).sum) = sumPending s + ((l.map Prod.snd).sum) := by
  simp [sumPending]

theorem pendingBalance_append_self (l : List (Nat × Nat)) (b amt : Nat) :
    (((l ++ [(b, amt)]).filter (fun p => p.1 = b)).map Prod.snd).sum
      = ((l.filter (fun p => p.1 = b)).map Prod.snd).sum + amt := by
  simp [List.filter_append]

theorem filter_key_after_remove (l : List (Nat × Nat)) (b : Nat) :
    ((l.filter (fun p => ¬ p.1 = b)).filter (fun p => p.1 = b)) = [] := by
  induction l with
  | nil => rfl
  | cons p t ih =>
    by_cases h : p.1 = b <;> simp [List.filter_cons, h, decide_not] at ih ⊢

theorem inv_placeBid (s s' : AuctionState) (b v now : Nat)
    (hs : Inv s) (h : placeBid s b v now = .ok s') : Inv s' := by
  obtain ⟨hc, hb0, hm, hcount⟩ := hs
  unfold placeBid at h
  by_cases h1 : s.endTime ≤ now
  · simp [h1] at h
  by_cases h2 : s.ended = true
  · simp [h1, h2] at h
  by_cases h3 : v < minAcceptable s
  · simp [h1, h2, h3] at h
  have hend : s.ended = false := by
    cases hx : s.ended
    · rfl
    · exact absurd hx h2
  have hnm : s.nftMinted = false := by
    cases hx : s.nftMinted
    · rfl
    · have hset := hm.mp hx
      rw [settled, hend] at hset
      simp at hset
  rw [lockedBid, if_neg (by simp [hend])] at hc
  cases hb : s.highestBidder with
  | some prev =>
    simp only [h1, h3, hb, hend, if_false, ite_false, Bool.false_eq_true] at h
    split at h <;>
    · rw [Except.ok.injEq] at h
      subst h
      refine ⟨?_, by simp, ?_, by simp [hcount, hnm]⟩
      · simp only [sumPending, lockedBid, sumTransfers] at *
        simp [hnm]
        omega
      · simp [settled, hend, hnm]
  | none =>
    simp only [h1, h3, hb, hend, if_false, ite_false, Bool.false_eq_true] at h
    have hzero : s.highestBid = 0 := hb0 hb
    split at h <;>
    · rw [Except.ok.injEq] at h
      subst h
      refine ⟨?_, by simp, ?_, by simp [hcount, hnm]⟩
      · simp only [sumPending, lockedBid, sumTransfers] at *
        simp [hnm]
        omega
      · simp [settled, hend, hnm]

theorem fee_le_bid (bid : Nat) : bid * platformFeePercentage / 10000 ≤ bid := by
  have h1 : bid * platformFeePercentage ≤ bid * 10000 := by
    unfold platformFeePercentage
    exact Nat.mul_le_mul_left bid (by norm_num)
  calc bid * platformFeePercentage / 10000
      ≤ bid * 10000 / 10000 := Nat.div_le_div_right h1
    _ = bid := Nat.mul_div_cancel bid (by norm_num)

theorem inv_endAuction (s s' : AuctionState) (now : Nat)
    (hs : Inv s) (h : endAuction s now = .ok s') : Inv s' := by
  obtain ⟨hc, hb0, hm, hcount⟩ := hs
  unfold endAuction at h
  by_cases h1 : now < s.endTime
  · simp [h1] at h
  by_cases h2 : s.ended = true
  · simp [h1, h2] at h
  have hend : s.ended = false := by
    cases hx : s.ended
    · rfl
    · exact absurd hx h2
  have hnm : s.nftMinted = false := by
    cases hx : s.nftMinted
    · rfl
    · have hset := hm.mp hx
      rw [settled, hend] at hset
      simp at hset
  have hmc : s.mintCount = 0 := by simp [hcount, hnm]
  rw [lockedBid, if_neg (by simp [hend])] at hc
  cases hb : s.highestBidder with
  | some w =>
    simp only [h1, h2, hb, hend, if_false, ite_false, Bool.false_eq_true] at h
    by_cases h3 : s.reservePrice ≤ s.highestBid
    · have hfee := fee_le_bid s.highestBid
      simp only [h3, hnm, if_true, ite_true, Bool.false_eq_true, if_false, ite_false] at h
      rw [Except.ok.injEq] at h
      subst h
      refine ⟨?_, by simp, ?_, by simp [hmc]⟩
      · simp only [sumPending, lockedBid, sumTransfers] at *
        simp
        omega
      · simp [settled, h3, hb]
    · simp only [h3, if_false, ite_false] at h
      rw [Except.ok.injEq] at h
      subst h
      refine ⟨?_, by simp, ?_, by simp [hmc, hnm]⟩
      · simp only [sumPending, lockedBid, sumTransfers] at *
        simp
        omega
      · simp [settled, hnm, h3]
  | none =>
    simp only [h1, h2, hb, hend, if_false, ite_false, Bool.false_eq_true] at h
    have hzero : s.highestBid = 0 := hb0 hb
    rw [Except.ok.injEq] at h
    subst h
    refine ⟨?_, by simp [hzero], ?_, by simp [hmc, hnm]⟩
    · simp only [sumPending, lockedBid, sumTransfers] at *
      simp
      omega
    · simp [settled, hnm, hb]

theorem inv_withdraw (s s' : AuctionState) (caller : Nat)
    (hs : Inv s) (h : withdraw s caller = .ok s') : Inv s' := by
  obtain ⟨hc, hb0, hm, hcount⟩ := hs
  unfold withdraw at h
  by_cases h1 : pendingBalance s caller = 0
  · simp [h1] at h
  simp only [h1, if_false, ite_false] at h
  rw [Except.ok.injEq] at h
  subst h
  have hsplit := sum_filter_key_split s.pending caller
  simp only [decide_not] at hsplit
  refine ⟨?_, by simpa using hb0, ?_, by simpa using hcount⟩
  · simp only [sumPending, lockedBid, sumTransfers, pendingBalance] at *
    simp [decide_not]
    omega
  · simpa [settled] using hm

theorem inv_exec (s : AuctionState) (op : Op) (hs : Inv s) : Inv (exec s op) := by
  cases op with
  | bid bidder value now =>
    cases h : placeBid s bidder value now with
    | ok s' =>
      have he : exec s (.bid bidder value now) = s' := by simp [exec, h]
      rw [he]
      exact inv_placeBid s s' bidder value now hs h
    | error e =>
      have he : exec s (.bid bidder value now) = s := by simp [exec, h]
      rw [he]
      exact hs
  | finish now =>
    cases h : endAuction s now with
    | ok s' =>
      have he : exec s (.finish now) = s' := by simp [exec, h]
      rw [he]
      exact inv_endAuction s s' now hs h
    | error e =>
      have he : exec s (.finish now) = s := by simp [exec, h]
      rw [he]
      exact hs
  | pull caller =>
    cases h : withdraw s caller with
    | ok s' =>
      have he : exec s (.pull caller) = s' := by simp [exec, h]
      rw [he]
      exact inv_withdraw s s' caller hs h
    | error e =>
      have he : exec s (.pull caller) = s := by simp [exec, h]
      rw [he]
      exact hs

theorem inv_run (s : AuctionState) (ops : List Op) (hs : Inv s) : Inv (run s ops) := by
  induction ops generalizing s with
  | nil => exact hs
  | cons op t ih => exact ih (exec s op) (inv_exec s op hs)

theorem inv_createAuction (sp rp inc dur now sender own fr : Nat) (s0 : AuctionState)
    (h : createAuction sp rp inc dur now sender own fr = .ok s0) : Inv s0 := by
  unfold createAuction at h
  by_cases h1 : sp = 0
  · simp [h1] at h
  by_cases h2 : dur < oneHour ∨ thirtyDays < dur
  · simp [h1, h2] at h
  simp only [h1, h2, if_false, ite_false] at h
  rw [Except.ok.injEq] at h
  subst h
  refine ⟨by simp [sumPending, lockedBid, sumTransfers], by simp, ?_, by simp⟩
  simp [settled]

theorem placeBid_endTime (s s' : AuctionState) (b v now : Nat)
    (h : placeBid s b v now = .ok s') :
    (s.endTime - now < fiveMinutes ∧ s'.endTime = s.endTime + fiveMinutes) ∨
    (fiveMinutes ≤ s.endTime - now ∧ s'.endTime = s.endTime) := by
  unfold placeBid at h
  by_cases h1 : s.endTime ≤ now
  · simp [h1] at h
  by_cases h2 : s.ended = true
  · simp [h1, h2] at h
  by_cases h3 : v < minAcceptable s
  · simp [h1, h2, h3] at h
  have hend : s.ended = false := by
    cases hx : s.ended
    · rfl
    · exact absurd hx h2
  cases hb : s.highestBidder <;>
  · simp only [h1, h3, hb, hend, if_false, ite_false, Bool.false_eq_true] at h
    split at h <;>
    · rw [Except.ok.injEq] at h
      subst h
      first
        | exact Or.inl ⟨by assumption, rfl⟩
        | exact Or.inr ⟨by omega, rfl⟩

theorem endAuction_endTime (s s' : AuctionState) (now : Nat)
    (h : endAuction s now = .ok s') : s'.endTime = s.endTime := by
  unfold endAuction at h
  by_cases h1 : now < s.endTime
  · simp [h1] at h
  by_cases h2 : s.ended = true
  · simp [h1, h2] at h
  have hend : s.ended = false := by
    cases hx : s.ended
    · rfl
    · exact absurd hx h2
  cases hb : s.highestBidder with
  | some w =>
    simp only [h1, h2, hb, hend, if_false, ite_false, Bool.false_eq_true] at h
    by_cases h3 : s.reservePrice ≤ s.highestBid
    · simp only [h3, if_true, ite_true] at h
      cases h4 : s.nftMinted with
      | true => simp [h4] at h
      | false =>
        simp only [h4, if_false, ite_false, Bool.false_eq_true] at h
        rw [Except.ok.injEq] at h
        subst h
        rfl
    · simp only [h3, if_false, ite_false] at h
      rw [Except.ok.injEq] at h
      subst h
      rfl
  | none =>
    simp only [h1, h2, hb, hend, if_false, ite_false, Bool.false_eq_true] at h
    rw [Except.ok.injEq] at h
    subst h
    rfl

theorem withdraw_endTime (s s' : AuctionState) (caller : Nat)
    (h : withdraw s caller = .ok s') : s'.endTime = s.endTime := by
  unfold withdraw at h
  by_cases h1 : pendingBalance s caller = 0
  · simp [h1] at h
  simp only [h1, if_false, ite_false] at h
  rw [Except.ok.injEq] at h
  subst h
  rfl

/-! ## Claim theorems -/

/-- C1 — Escrow conservation: for every sequence of `placeBid`,
`endAuction` and `withdraw` calls on one auction, the sum of all
pending-return amounts, plus the `highestBid` still locked while the
auction is open, equals the total funds ever deposited minus the total
already withdrawn or disbursed, at every point in time. -/
theorem C1_escrow_conservation (sp rp inc dur now sender own fr : Nat)
    (s0 : AuctionState) (ops : List Op)
    (h : createAuction sp rp inc dur now sender own fr = .ok s0) :
    sumPending (run s0 ops) + lockedBid (run s0 ops) + sumTransfers (run s0 ops)
      = (run s0 ops).totalDeposited ∧
    sumPending (run s0 ops) + lockedBid (run s0 ops)
      = (run s0 ops).totalDeposited - sumTransfers (run s0 ops) := by
  have hi := inv_run s0 ops (inv_createAuction sp rp inc dur now sender own fr s0 h)
  obtain ⟨hc, -, -, -⟩ := hi
  exact ⟨hc, by omega⟩

/-- Witness for C1 at Scenario-A parameters and a concrete trace of two
bids, a withdrawal and an unsold end. -/
theorem C1_escrow_conservation_witness :
    createAuction 1000 5000 100 3600 0 2 0 1 = .ok sampleAuction ∧
    sumPending (run sampleAuction sampleOps) + lockedBid (run sampleAuction sampleOps)
      + sumTransfers (run sampleAuction sampleOps) = (run sampleAuction sampleOps).totalDeposited :=
  ⟨by rfl,
   (C1_escrow_conservation 1000 5000 100 3600 0 2 0 1 sampleAuction sampleOps (by rfl)).1⟩

/-- C3 — Single winner: over every trace from a freshly created auction,
the NFT is minted at most once; it is minted exactly once iff the auction
settled (a highest bidder exists and the reserve is met); and once the
auction has ended, a further `endAuction` call (at or past the end time)
fails with `Already ended`. -/
theorem C3_single_winner (sp rp inc dur now sender own fr : Nat)
    (s0 : AuctionState) (ops : List Op) (now2 : Nat)
    (h : createAuction sp rp inc dur now sender own fr = .ok s0) :
    (run s0 ops).mintCount ≤ 1 ∧
    ((run s0 ops).mintCount = 1 ↔ settled (run s0 ops)) ∧
    ((run s0 ops).nftMinted = true ↔ settled (run s0 ops)) ∧
    ((run s0 ops).ended = true → (run s0 ops).endTime ≤ now2 →
      endAuction (run s0 ops) now2 = .error .alreadyEnded) := by
  have hi := inv_run s0 ops (inv_createAuction sp rp inc dur now sender own fr s0 h)
  obtain ⟨hc, hb0, hm, hcount⟩ := hi
  refine ⟨by rw [hcount]; split <;> omega, ?_, hm, ?_⟩
  · rw [hcount, ← hm]
    cases hx : (run s0 ops).nftMinted <;> simp [hx]
  · intro hended hle
    unfold endAuction
    rw [if_neg (by omega), if_pos (by simp [hended])]

/-- Witness for C3: a settling trace mints exactly once, and a repeated
`endAuction` fails with `Already ended`. -/
theorem C3_single_winner_witness :
    (run sampleAuction settleOps).mintCount = 1 ∧
    settled (run sampleAuction settleOps) ∧
    endAuction (run sampleAuction settleOps) 7300 = .error .alreadyEnded := by
  have h := C3_single_winner 1000 5000 100 3600 0 2 0 1 sampleAuction settleOps 7300 (by rfl)
  have hset : settled (run sampleAuction settleOps) := by decide
  exact ⟨h.2.1.mpr hset, hset, h.2.2.2 (by decide) (by decide)⟩

/-- C4 — Minimum-acceptable-bid rule: on an open auction (not ended,
before the end time), `placeBid` succeeds iff the bid is at least
`minAcceptable` (the starting price while no bid exists, otherwise
highest bid plus increment), and otherwise fails with `Bid too low`. -/
theorem C4_min_bid_rule (s : AuctionState) (b v now : Nat)
    (h1 : s.ended = false) (h2 : now < s.endTime) :
    ((∃ s', placeBid s b v now = .ok s') ↔ minAcceptable s ≤ v) ∧
    (v < minAcceptable s → placeBid s b v now = .error .bidTooLow) := by
  constructor
  · constructor
    · rintro ⟨s', hs'⟩
      by_contra hv
      unfold placeBid at hs'
      rw [if_neg (by omega), if_neg (by simp [h1]), if_pos (by omega)] at hs'
      cases hs'
    · intro hv
      unfold placeBid
      rw [if_neg (by omega), if_neg (by simp [h1]), if_neg (by omega)]
      cases hb : s.highestBidder <;>
      · simp only [hb]
        split
        · exact ⟨_, rfl⟩
        · exact ⟨_, rfl⟩
  · intro hv
    unfold placeBid
    rw [if_neg (by omega), if_neg (by simp [h1]), if_pos (by omega)]

/-- Witness for C4 — Scenario A: starting price 1000, reserve 5000,
increment 100; a bid of 900 fails `Bid too low`, 1000 succeeds, then
1050 fails and 1100 succeeds. -/
theorem C4_min_bid_rule_witness :
    placeBid sampleAuction 3 900 0 = .error .bidTooLow ∧
    placeBid sampleAuction 3 1000 0 = .ok scenA1 ∧
    placeBid scenA1 4 1050 5 = .error .bidTooLow ∧
    placeBid scenA1 4 1100 5 = .ok scenA2 :=
  ⟨(C4_min_bid_rule sampleAuction 3 900 0 (by rfl) (by decide)).2 (by decide),
   by rfl,
   (C4_min_bid_rule scenA1 4 1050 5 (by rfl) (by decide)).2 (by decide),
   by rfl⟩

/-- C5 — Anti-snipe extension: every accepted bid placed while
`endTime - now < 5 minutes` yields `endTime + 5 minutes` as the new end
time (and this applies at every such state, hence repeatably); any other
accepted bid leaves the end time unchanged; and no call whatsoever
decreases the end time. -/
theorem C5_antisnipe :
    (∀ s b v now s', placeBid s b v now = .ok s' →
      ((s.endTime - now < fiveMinutes ∧ s'.endTime = s.endTime + fiveMinutes) ∨
       (fiveMinutes ≤ s.endTime - now ∧ s'.endTime = s.endTime))) ∧
    (∀ s op, s.endTime ≤ (exec s op).endTime) := by
  constructor
  · intro s b v now s' h
    exact placeBid_endTime s s' b v now h
  · intro s op
    cases op with
    | bid bidder value now =>
      cases h : placeBid s bidder value now with
      | ok s' =>
        have he : exec s (.bid bidder value now) = s' := by simp [exec, h]
        rw [he]
        rcases placeBid_endTime s s' bidder value now h with ⟨-, h2⟩ | ⟨-, h2⟩ <;> omega
      | error e =>
        have he : exec s (.bid bidder value now) = s := by simp [exec, h]
        rw [he]
    | finish now =>
      cases h : endAuction s now with
      | ok s' =>
        have he : exec s (.finish now) = s' := by simp [exec, h]
        rw [he, endAuction_endTime s s' now h]
      | error e =>
        have he : exec s (.finish now) = s := by simp [exec, h]
        rw [he]
    | pull caller =>
      cases h : withdraw s caller with
      | ok s' =>
        have he : exec s (.pull caller) = s' := by simp [exec, h]
        rw [he, withdraw_endTime s s' caller h]
      | error e =>
        have he : exec s (.pull caller) = s := by simp [exec, h]
        rw [he]

/-- Witness for C5: a bid 200 seconds before the end time extends the
end time by exactly 5 minutes. -/
theorem C5_antisnipe_witness :
    placeBid lateAuction 3 1000 0 = .ok lateAfter ∧
    lateAuction.endTime - 0 < fiveMinutes ∧
    lateAfter.endTime = lateAuction.endTime + fiveMinutes :=
  ⟨by rfl, by decide,
   ((C5_antisnipe.1 lateAuction 3 1000 0 lateAfter (by rfl)).resolve_right (by decide)).2⟩

/-- C6 — Withdraw exactly-once: `withdraw` fails with
`Nothing to withdraw` iff the caller's escrow balance is zero; when the
balance is positive the full amount is transferred out, the balance
becomes zero, and an immediately repeated `withdraw` fails with
`Nothing to withdraw`. -/
theorem C6_withdraw_exactly_once (s : AuctionState) (caller : Nat) :
    (withdraw s caller = .error .nothingToWithdraw ↔ pendingBalance s caller = 0) ∧
    (∀ s', withdraw s caller = .ok s' →
      s'.transfers = s.transfers ++ [(caller, pendingBalance s caller)] ∧
      pendingBalance s' caller = 0 ∧
      withdraw s' caller = .error .nothingToWithdraw) := by
  have hzero : ∀ t : List (Nat × Nat),
      pendingBalance { s with
        pending := s.pending.filter (fun p => ¬ p.1 = caller),
        transfers := t } caller = 0 := by
    intro t
    show ((List.filter _ (s.pending.filter (fun p => ¬ p.1 = caller))).map Prod.snd).sum = 0
    rw [filter_key_after_remove s.pending caller]
    rfl
  constructor
  · unfold withdraw
    by_cases h : pendingBalance s caller = 0 <;> simp [h]
  · intro s' h
    unfold withdraw at h
    by_cases h0 : pendingBalance s caller = 0
    · simp [h0] at h
    simp only [h0, if_false, ite_false] at h
    rw [Except.ok.injEq] at h
    subst h
    refine ⟨rfl, hzero _, ?_⟩
    unfold withdraw
    rw [if_pos (hzero _)]

/-- Witness for C6 — Scenario B: bidder 10 bids 1000, bidder 11 bids
1200; bidder 10's 1000 becomes withdrawable, is withdrawn exactly once,
and a second `withdraw` fails. -/
theorem C6_withdraw_exactly_once_witness :
    pendingBalance scenB2 10 = 1000 ∧
    withdraw scenB2 10 = .ok scenB3 ∧
    scenB3.transfers = scenB2.transfers ++ [(10, pendingBalance scenB2 10)] ∧
    pendingBalance scenB3 10 = 0 ∧
    withdraw scenB3 10 = .error .nothingToWithdraw := by
  have h := (C6_withdraw_exactly_once scenB2 10).2 scenB3 (by rfl)
  exact ⟨by decide, by rfl, h.1, h.2.1, h.2.2⟩

/-- C2 (counterexample) — The claim "no funds are transferred out to any
address during the placeBid call" fails for the cited
`YizhenAuctionWithCompliance.placeBid`: with a previous bidder 7 at 150,
an accepted bid of 200 by bidder 8 pushes a 150 refund `transfer` to
bidder 7 inside the `placeBid` call (and credits no escrow entry). -/
theorem C2_push_refund_counterexample :
    wcPlaceBid c2Registry wcSt0 7 150 0 = .ok wcSt1 ∧
    wcSt1.transfers = [] ∧
    wcPlaceBid c2Registry wcSt1 8 200 0 = .ok wcSt2 ∧
    wcSt2.transfers = [(7, 150)] :=
  ⟨by rfl, rfl, by rfl, rfl⟩

/-- C2 (amended) — Pull-payment on outbid holds for
`YizhenAuctionMinimal.placeBid`: every accepted bid on an auction with a
previous highest bidder credits that bidder's full previous bid to their
`pendingReturns` escrow balance and issues no outbound transfer during
the call.  (`YizhenAuctionWithCompliance.placeBid` instead pushes the
refund directly.) -/
theorem C2_pull_payment_minimal (s s' : AuctionState) (b v now prev : Nat)
    (hb : s.highestBidder = some prev) (h : placeBid s b v now = .ok s') :
    pendingBalance s' prev = pendingBalance s prev + s.highestBid ∧
    s'.transfers = s.transfers := by
  unfold placeBid at h
  by_cases h1 : s.endTime ≤ now
  · simp [h1] at h
  by_cases h2 : s.ended = true
  · simp [h1, h2] at h
  by_cases h3 : v < minAcceptable s
  · simp [h1, h2, h3] at h
  have hend : s.ended = false := by
    cases hx : s.ended
    · rfl
    · exact absurd hx h2
  simp only [h1, h3, hb, hend, if_false, ite_false, Bool.false_eq_true] at h
  split at h <;>
  · rw [Except.ok.injEq] at h
    subst h
    exact ⟨pendingBalance_append_self s.pending prev s.highestBid, rfl⟩

/-- Witness for C2 (amended): bidder 11's accepted bid of 1200 credits
the outbid bidder 10 with their 1000 and transfers nothing out. -/
theorem C2_pull_payment_minimal_witness :
    scenB1.highestBidder = some 10 ∧
    placeBid scenB1 11 1200 1 = .ok scenB2 ∧
    pendingBalance scenB2 10 = pendingBalance scenB1 10 + scenB1.highestBid ∧
    scenB2.transfers = scenB1.transfers :=
  ⟨by decide, by rfl,
   (C2_pull_payment_minimal scenB1 scenB2 11 1200 1 10 (by decide) (by rfl)).1,
   (C2_pull_payment_minimal scenB1 scenB2 11 1200 1 10 (by decide) (by rfl)).2⟩

/-- C7 (counterexample) — On settlement the seller proceeds are
transferred to the contract owner, not to the auction's seller: auction
created by seller 2 (owner 0, fee recipient 1, reserve 1000), winning bid
1200; `endAuction` transfers the 30 fee to address 1 and the 1170
proceeds to address 0, and no transfer at all goes to the seller 2. -/
theorem C7_proceeds_to_owner_counterexample :
    c7Start.seller = 2 ∧
    c7End.ownerAddr = 0 ∧
    c7End.seller = 2 ∧
    c7End.nftMinted = true ∧
    c7End.transfers = [(1, 30), (0, 1170)] ∧
    c7End.transfers.filter (fun p => p.1 = c7End.seller) = [] := by
  refine ⟨rfl, rfl, rfl, by decide, by decide, by decide⟩

/-- C7 (amended) — Settlement disbursement: when `endAuction` settles
(highest bidder exists and the reserve is met) it computes
`fee = highestBid * 250 / 10000`, transfers the fee to the fee recipient
and `highestBid - fee` to the **contract owner** (not the auction's
seller, which the contract does not record), and mints the NFT to the
winner; when the reserve is not met the auction ends unsold, the highest
bidder's bid becomes withdrawable escrow, and nothing is minted. -/
theorem C7_settlement_disbursement (s : AuctionState) (now w : Nat)
    (h1 : s.endTime ≤ now) (h2 : s.ended = false) (h3 : s.nftMinted = false)
    (hb : s.highestBidder = some w) :
    (s.reservePrice ≤ s.highestBid →
      endAuction s now = .ok { s with
        ended := true
        transfers := s.transfers ++
          [(s.feeRecipient, s.highestBid * platformFeePercentage / 10000),
           (s.ownerAddr, s.highestBid - s.highestBid * platformFeePercentage / 10000)]
        nftMinted := true
        mintCount := s.mintCount + 1
        mintedTo := some w }) ∧
    (s.highestBid < s.reservePrice →
      endAuction s now = .ok { s with
        ended := true
        pending := s.pending ++ [(w, s.highestBid)] } ∧
      pendingBalance { s with
        ended := true
        pending := s.pending ++ [(w, s.highestBid)] } w
        = pendingBalance s w + s.highestBid) := by
  constructor
  · intro hres
    unfold endAuction
    rw [if_neg (by omega), if_neg (by simp [h2])]
    simp only [hb, hres, h3, if_true, ite_true, if_false, ite_false, Bool.false_eq_true]
  · intro hres
    refine ⟨?_, pendingBalance_append_self s.pending w s.highestBid⟩
    unfold endAuction
    rw [if_neg (by omega), if_neg (by simp [h2])]
    simp only [hb, if_false, ite_false]
    rw [if_neg (by omega)]

/-- Witness for C7 — Scenario C: highest bid 1200 below reserve 5000;
`endAuction` ends the auction unsold, the 1200 becomes withdrawable by
the bidder, and no NFT is minted. -/
theorem C7_settlement_disbursement_witness :
    scenC1.highestBid < scenC1.reservePrice ∧
    endAuction scenC1 3600 = .ok { scenC1 with
      ended := true
      pending := scenC1.pending ++ [(3, scenC1.highestBid)] } ∧
    pendingBalance { scenC1 with
      ended := true
      pending := scenC1.pending ++ [(3, scenC1.highestBid)] } 3
      = pendingBalance scenC1 3 + scenC1.highestBid ∧
    scenC1.nftMinted = false :=
  ⟨by decide,
   ((C7_settlement_disbursement scenC1 3600 3 (by decide) (by rfl) (by rfl)
      (by decide)).2 (by decide)).1,
   ((C7_settlement_disbursement scenC1 3600 3 (by decide) (by rfl) (by rfl)
      (by decide)).2 (by decide)).2,
   by rfl⟩

/-- C8 (counterexample) — The claim "rejected with reason
manual-review-required for every bid amount" fails: user 5 has risk
score 8500 ≥ threshold 7000, is approved and unsanctioned, yet at amount
600000000 (above the KYC-NONE per-transaction limit of 500000000)
`checkTransaction` rejects with "Exceeds per-transaction limit", because
the limit checks run before the risk check. -/
theorem C8_limit_reason_counterexample :
    c8Registry.highRiskThreshold ≤ (c8Registry.userCompliance 5).riskScore ∧
    (c8Registry.userCompliance 5).sanctioned = false ∧
    (c8Registry.userCompliance 5).status = .APPROVED ∧
    checkTransaction c8Registry 5 600000000 0 = (false, "Exceeds per-transaction limit") ∧
    checkTransaction c8Registry 5 600000000 0 ≠ (false, "High risk - manual review required") :=
  ⟨by decide, rfl, rfl, by rfl, by decide⟩

/-- C8 (amended) — High-risk rejection: an actor with
`riskScore ≥ highRiskThreshold` who is not sanctioned, blocked, unknown
or KYC-expired is rejected for **every** amount; the reason is
"High risk - manual review required" exactly when the amount is within
the per-transaction, daily and monthly limits (amounts beyond a limit
are rejected with that limit's reason instead). -/
theorem C8_high_risk_rejection (r : Registry) (u amount now : Nat)
    (hsan : (r.userCompliance u).sanctioned = false)
    (hlist : r.sanctionsList u = false)
    (hblk : (r.userCompliance u).status ≠ .BLOCKED)
    (hunk : (r.userCompliance u).status ≠ .UNKNOWN)
    (hkyc : ¬ (0 < (r.userCompliance u).kycExpiry ∧ (r.userCompliance u).kycExpiry < now))
    (hrisk : r.highRiskThreshold ≤ (r.userCompliance u).riskScore) :
    (checkTransaction r u amount now).1 = false ∧
    (amount ≤ (r.transactionLimits (r.userCompliance u).kycLevel).perTransactionLimit →
     getCurrentDailyVolume r u now + amount
       ≤ (r.transactionLimits (r.userCompliance u).kycLevel).dailyLimit →
     getCurrentMonthlyVolume r u now + amount
       ≤ (r.transactionLimits (r.userCompliance u).kycLevel).monthlyLimit →
     checkTransaction r u amount now = (false, "High risk - manual review required")) := by
  constructor
  · unfold checkTransaction
    simp only [hsan, hlist, Bool.or_self, Bool.false_eq_true, if_false, ite_false]
    rw [if_neg hblk, if_neg hunk, if_neg hkyc]
    rw [if_pos hrisk]
    split
    · rfl
    split
    · rfl
    split
    · rfl
    rfl
  · intro hp hd hm
    unfold checkTransaction
    simp only [hsan, hlist, Bool.or_self, Bool.false_eq_true, if_false, ite_false]
    rw [if_neg hblk, if_neg hunk, if_neg hkyc,
      if_neg (by omega), if_neg (by omega), if_neg (by omega), if_pos hrisk]

/-- Witness for C8 — Scenario D numbers: user 5 with risk score 8500
against threshold 7000, amount 100 within all limits, is rejected with
"High risk - manual review required". -/
theorem C8_high_risk_rejection_witness :
    (checkTransaction c8Registry 5 100 0).1 = false ∧
    checkTransaction c8Registry 5 100 0 = (false, "High risk - manual review required") := by
  have h := C8_high_risk_rejection c8Registry 5 100 0 rfl rfl
    (by decide) (by decide) (by decide) (by decide)
  exact ⟨h.1, h.2 (by decide) (by decide) (by decide)⟩

/-- C9 (counterexample) — `createAuction` does not validate price
consistency: a call with `reservePrice = 500 < startingPrice = 1000`
succeeds, and so does one with `reservePrice = 0` and
`minBidIncrement = 0`; only `startingPrice > 0` and the duration bound
are checked. -/
theorem C9_reserve_unchecked_counterexample :
    createAuction 1000 500 100 3600 0 2 0 1 = .ok { sampleAuction with reservePrice := 500 } ∧
    (500 : Nat) < 1000 ∧
    createAuction 1000 0 0 3600 0 2 0 1
      = .ok { sampleAuction with reservePrice := 0, minBidIncrement := 0 } :=
  ⟨by rfl, by decide, by rfl⟩

/-- C9 (amended) — `createAuction` validation: the call succeeds iff
`startingPrice > 0` and the duration lies within 1 hour – 30 days
(`reservePrice` and `minBidIncrement` are not validated, in particular
`reservePrice < startingPrice` is accepted); on success the auction is
open with zero highest bid and no highest bidder. -/
theorem C9_createAuction_validation (sp rp inc dur now sender own fr : Nat) :
    ((∃ s, createAuction sp rp inc dur now sender own fr = .ok s) ↔
      (0 < sp ∧ oneHour ≤ dur ∧ dur ≤ thirtyDays)) ∧
    (∀ s, createAuction sp rp inc dur now sender own fr = .ok s →
      s.ended = false ∧ s.highestBid = 0 ∧ s.highestBidder = none ∧
      s.startTime = now ∧ s.endTime = now + dur ∧
      s.startingPrice = sp ∧ s.reservePrice = rp ∧ s.minBidIncrement = inc) := by
  constructor
  · constructor
    · rintro ⟨s, hs⟩
      unfold createAuction at hs
      by_cases h1 : sp = 0
      · simp [h1] at hs
      by_cases h2 : dur < oneHour ∨ thirtyDays < dur
      · simp [h1, h2] at hs
      exact ⟨by omega, by omega, by omega⟩
    · rintro ⟨ha, hb, hc⟩
      unfold createAuction
      rw [if_neg (by omega), if_neg (by omega)]
      exact ⟨_, rfl⟩
  · intro s hs
    unfold createAuction at hs
    by_cases h1 : sp = 0
    · simp [h1] at hs
    by_cases h2 : dur < oneHour ∨ thirtyDays < dur
    · simp [h1, h2] at hs
    simp only [h1, h2, if_false, ite_false] at hs
    rw [Except.ok.injEq] at hs
    subst hs
    exact ⟨rfl, rfl, rfl, rfl, rfl, rfl, rfl, rfl⟩

/-- Witness for C9: at Scenario-A parameters the creation succeeds and
yields an open auction with no bid. -/
theorem C9_createAuction_validation_witness :
    sampleAuction.ended = false ∧
    sampleAuction.highestBid = 0 ∧
    sampleAuction.highestBidder = none ∧
    createAuction 1000 5000 100 3600 0 2 0 1 = .ok sampleAuction := by
  have h := (C9_createAuction_validation 1000 5000 100 3600 0 2 0 1).2 sampleAuction (by rfl)
  exact ⟨h.1, h.2.1, h.2.2.1, by rfl⟩

/-- C10 — Clearing sanctions does not unblock: `addToSanctionsList` sets
both sanction flags and `status = BLOCKED`; `removeFromSanctionsList`
clears only the sanction flags, leaving `status` (and every other
profile field, and every other registry table) unchanged, so the actor
remains BLOCKED and `checkTransaction` still rejects with
"User is blocked" for every amount — until an `updateCompliance` call
with a non-blocked status and a sub-threshold risk score resets it. -/
theorem C10_clear_sanctions_keeps_blocked (r : Registry) (u : Nat) :
    ((removeFromSanctionsList (addToSanctionsList r u) u).userCompliance u).status = .BLOCKED ∧
    ((removeFromSanctionsList (addToSanctionsList r u) u).userCompliance u).sanctioned = false ∧
    (removeFromSanctionsList (addToSanctionsList r u) u).sanctionsList u = false ∧
    (removeFromSanctionsList (addToSanctionsList r u) u).userCompliance u
      = { (addToSanctionsList r u).userCompliance u with sanctioned := false } ∧
    (∀ amount now, checkTransaction (removeFromSanctionsList (addToSanctionsList r u) u)
        u amount now = (false, "User is blocked")) ∧
    (removeFromSanctionsList (addToSanctionsList r u) u).dailyVolume = r.dailyVolume ∧
    (removeFromSanctionsList (addToSanctionsList r u) u).monthlyVolume = r.monthlyVolume ∧
    (removeFromSanctionsList (addToSanctionsList r u) u).lastActivityDate = r.lastActivityDate ∧
    (removeFromSanctionsList (addToSanctionsList r u) u).transactionLimits = r.transactionLimits ∧
    (removeFromSanctionsList (addToSanctionsList r u) u).highRiskThreshold = r.highRiskThreshold ∧
    (∀ score now2, score ≤ 10000 → score < r.highRiskThreshold →
      ∃ r3, updateCompliance (removeFromSanctionsList (addToSanctionsList r u) u)
          u .APPROVED score now2 = .ok r3 ∧
        (r3.userCompliance u).status = .APPROVED) := by
  refine ⟨?_, ?_, ?_, ?_, ?_, rfl, rfl, rfl, rfl, rfl, ?_⟩
  · simp [removeFromSanctionsList, addToSanctionsList, Function.update_same]
  · simp [removeFromSanctionsList, addToSanctionsList, Function.update_same]
  · simp [removeFromSanctionsList, Function.update_same]
  · simp [removeFromSanctionsList, addToSanctionsList, Function.update_same]
  · intro amount now
    unfold checkTransaction
    simp [removeFromSanctionsList, addToSanctionsList, Function.update_same]
  · intro score now2 hle hlt
    have hth : (removeFromSanctionsList (addToSanctionsList r u) u).highRiskThreshold
        = r.highRiskThreshold := rfl
    unfold updateCompliance
    rw [if_neg (by omega)]
    refine ⟨_, rfl, ?_⟩
    simp only [Function.update_same]
    rw [if_neg (by rw [hth]; rintro ⟨hA, -⟩; omega)]

/-- Witness for C10: sanctioning user 5 of a fresh registry and then
clearing the sanction leaves the user BLOCKED and still rejected. -/
theorem C10_clear_sanctions_keeps_blocked_witness :
    (c10r2.userCompliance 5).status = .BLOCKED ∧
    (c10r2.userCompliance 5).sanctioned = false ∧
    checkTransaction c10r2 5 777 3 = (false, "User is blocked") := by
  have h := C10_clear_sanctions_keeps_blocked initRegistry 5
  exact ⟨h.1, h.2.1, h.2.2.2.2.1 777 3⟩

end Yizhen
